import Mathlib

/-!
Verification of the sugargap repository: two ingestion pipelines
(`update_contracts.py` and `update_exchange_rate.py`) that select
front-month sugar futures contracts, fetch prices / an exchange rate,
and insert a record into a table store.

The Python source is shallowly embedded below.  External effects
(environment variables, provider responses, insert acknowledgments,
the current time) are passed in explicitly as parameters, and every
externally visible action (session creation, per-symbol price fetch,
rate fetch, insert) is recorded in an event trace.  Numeric prices
and rates are modelled as rationals: the pipelines only move these
values around, never compute with them.
-/

namespace Sugargap

/-- `CONTRACT_MONTHS` from `update_contracts.py`: the quarterly
month-code table (H = March, K = May, N = July, V = October). -/
def CONTRACT_MONTHS : List (String × Nat) :=
  [("H", 3), ("K", 5), ("N", 7), ("V", 10)]

/-- Python's `str(y)[-2:]`: the last two characters of the decimal
representation of the year. -/
def lastTwo (y : Nat) : String :=
  let s := toString y
  s.drop (s.length - 2)

/-- The contract symbol built at line 72 of `update_contracts.py`:
`f"SB{code}{str(y)[-2:]}"`. -/
def symbolFor (code : String) (y : Nat) : String :=
  "SB" ++ code ++ lastTwo y

/-- The iteration space of the nested loop in `get_current_contract_names`:
`for y in (year, year + 1): for code, contract_month in CONTRACT_MONTHS`. -/
def iterItems (year : Nat) : List (Nat × String × Nat) :=
  [year, year + 1].flatMap (fun y => CONTRACT_MONTHS.map (fun cm => (y, cm.1, cm.2)))

/-- The body of the loop of `get_current_contract_names` (lines 66-75):
skip when `y == year and contract_month <= month`, otherwise append the
symbol and return as soon as 3 contracts were collected. -/
def selGo (year month : Nat) : List (Nat × String × Nat) → List String → List String
  | [], contracts => contracts
  | (y, code, m) :: rest, contracts =>
    if y = year ∧ m ≤ month then selGo year month rest contracts
    else
      let contracts' := contracts ++ [symbolFor code y]
      if contracts'.length = 3 then contracts' else selGo year month rest contracts'

/-- `get_current_contract_names` from `update_contracts.py` (lines 56-77),
with the reference date passed explicitly as (year, month). -/
def get_current_contract_names (year month : Nat) : List String :=
  selGo year month (iterItems year) []

/-- The same loop as `selGo`, but collecting the (year, code, expiry-month)
triples the emitted symbols denote, so that ordering and expiry properties
can be stated about them. -/
def selGoAnn (year month : Nat) :
    List (Nat × String × Nat) → List (Nat × String × Nat) → List (Nat × String × Nat)
  | [], contracts => contracts
  | (y, code, m) :: rest, contracts =>
    if y = year ∧ m ≤ month then selGoAnn year month rest contracts
    else
      let contracts' := contracts ++ [(y, code, m)]
      if contracts'.length = 3 then contracts' else selGoAnn year month rest contracts'

/-- Annotated contract selection: the (year, code, expiry-month) triples
behind `get_current_contract_names`. -/
def selAnn (year month : Nat) : List (Nat × String × Nat) :=
  selGoAnn year month (iterItems year) []

/-- The chronological position of a quarterly month code (H < K < N < V). -/
def codeOrder : String → Nat
  | "H" => 0
  | "K" => 1
  | "N" => 2
  | "V" => 3
  | _ => 4

/-- Strict (year, quarterly-code-order) ordering on annotated contracts. -/
def contractLt (a b : Nat × String × Nat) : Prop :=
  a.1 < b.1 ∨ (a.1 = b.1 ∧ codeOrder a.2.1 < codeOrder b.2.1)

instance : DecidablePred fun p : (Nat × String × Nat) × (Nat × String × Nat) =>
    contractLt p.1 p.2 := by
  intro p
  unfold contractLt
  infer_instance

/-- Mapping an annotated contract back to its symbol string. -/
def symOf (t : Nat × String × Nat) : String := symbolFor t.2.1 t.1

lemma selGo_eq_map (year month : Nat) :
    ∀ (items : List (Nat × String × Nat)) (acc : List (Nat × String × Nat)),
      selGo year month items (acc.map symOf) = (selGoAnn year month items acc).map symOf := by
  intro items
  induction items with
  | nil => intro acc; simp [selGo, selGoAnn]
  | cons hd tl ih =>
    intro acc
    obtain ⟨y, code, m⟩ := hd
    by_cases h : y = year ∧ m ≤ month
    · simp only [selGo, selGoAnn, if_pos h]
      exact ih acc
    · simp only [selGo, selGoAnn, if_neg h]
      have hmap : (acc.map symOf) ++ [symbolFor code y] = (acc ++ [(y, code, m)]).map symOf := by
        simp [symOf]
      rw [hmap]
      have hlen : ((acc ++ [(y, code, m)]).map symOf).length = (acc ++ [(y, code, m)]).length := by
        simp
      rw [hlen]
      by_cases h3 : (acc ++ [(y, code, m)]).length = 3
      · rw [if_pos h3, if_pos h3]
      · rw [if_neg h3, if_neg h3]
        exact ih (acc ++ [(y, code, m)])

/-- The selector's symbols are exactly the symbols of the annotated selection. -/
lemma sel_map (year month : Nat) :
    get_current_contract_names year month = (selAnn year month).map symOf := by
  have h := selGo_eq_map year month (iterItems year) []
  simpa [get_current_contract_names, selAnn] using h

/-- A fetched (symbol, price) pair: the `{'symbol': ..., 'price': ...}`
dict appended to `contracts_data` in `main` of `update_contracts.py`. -/
structure PricedContract where
  symbol : String
  price : ℚ
deriving DecidableEq, Repr

/-- The `contract_record` dict built in `update_supabase_contracts`
(lines 119-127 of `update_contracts.py`). -/
structure ContractRecord where
  contract_name_1 : String
  contract_1 : ℚ
  contract_name_2 : String
  contract_2 : ℚ
  contract_name_3 : String
  contract_3 : ℚ
  timestamp : String
deriving DecidableEq, Repr

/-- Externally visible actions of a run, in order of occurrence. -/
inductive Event where
  | sessionCreate : Event
  | priceFetch : String → Event
  | rateFetch : Event
  | insertContracts : ContractRecord → Event
  | insertRate : ℚ → String → Event
deriving DecidableEq, Repr

/-- Whether an event is an invocation of the Persistence Sink. -/
def Event.isInsert : Event → Bool
  | .insertContracts _ => true
  | .insertRate _ _ => true
  | _ => false

/-- Outcome of `get_historical_prices_for_contract` as observed by
`fetch_contract_price`: the call raises, returns `None`, or returns a
data frame whose Close column is the given row list. -/
inductive ProviderResult where
  | raises : ProviderResult
  | noneDf : ProviderResult
  | series : List ℚ → ProviderResult
deriving DecidableEq, Repr

/-- `fetch_contract_price` from `update_contracts.py` (lines 90-110):
any raised exception and the `df is None or df.empty` cases are turned
into the sentinel `none`; otherwise the latest close is returned. -/
def fetch_contract_price (resp : ProviderResult) : Option ℚ :=
  match resp with
  | .raises => none
  | .noneDf => none
  | .series rows => if rows.isEmpty then none else rows.getLast?

/-- Outcome of the table-store `insert(...).execute()` call: it raises,
returns with empty `result.data`, or returns acknowledged row data. -/
inductive InsertOutcome where
  | raises : InsertOutcome
  | ackEmpty : InsertOutcome
  | ackData : InsertOutcome
deriving DecidableEq, Repr

/-- The record construction of `update_supabase_contracts` (lines 115-127):
raises `ValueError` unless `contracts_data` has exactly 3 entries, then
builds the positional record from entries 0, 1, 2 with one timestamp. -/
def contract_record (contractsData : List PricedContract) (now : String) :
    Except String ContractRecord :=
  match contractsData with
  | [c1, c2, c3] =>
    .ok ⟨c1.symbol, c1.price, c2.symbol, c2.price, c3.symbol, c3.price, now⟩
  | _ => .error "Expected exactly 3 contract prices"

/-- `update_supabase_contracts` (lines 112-141): builds the record and
inserts it.  An insert that raises is re-raised; an insert that returns
with empty `result.data` only logs an error and returns normally, exactly
like one that returns data. -/
def update_supabase_contracts (contractsData : List PricedContract) (now : String)
    (outcome : InsertOutcome) : Except String Unit × List Event :=
  match contract_record contractsData now with
  | .error e => (.error e, [])
  | .ok r =>
    match outcome with
    | .raises => (.error "Failed to update Supabase contracts", [Event.insertContracts r])
    | .ackEmpty => (.ok (), [Event.insertContracts r])
    | .ackData => (.ok (), [Event.insertContracts r])

/-- The environment of one run of the contracts pipeline: reference date,
presence of the credential environment variables, and the behaviour of
the external collaborators. -/
structure ContractsEnv where
  refYear : Nat
  refMonth : Nat
  barchartCreds : Bool
  sessionOk : Bool
  provider : String → ProviderResult
  supabaseCreds : Bool
  insertOutcome : InsertOutcome
  now : String

/-- The per-symbol fetch loop of `main` (lines 160-170 of
`update_contracts.py`): append one priced entry per symbol, or stop the
run (`sys.exit(1)`, modelled as `none`) at the first missing price. -/
def fetchLoop (provider : String → ProviderResult) :
    List String → List PricedContract → Option (List PricedContract) × List Event
  | [], acc => (some acc, [])
  | s :: rest, acc =>
    match fetch_contract_price (provider s) with
    | some p =>
      let r := fetchLoop provider rest (acc ++ [⟨s, p⟩])
      (r.1, Event.priceFetch s :: r.2)
    | none => (none, [Event.priceFetch s])

/-- `main` of `update_contracts.py` (lines 143-185), returning the process
exit code and the trace of external actions.  Credential lookups that
raise are caught by the outer handler and end the run with exit 1;
`sys.exit(1)` in the fetch loop also ends the run with exit 1. -/
def mainContracts (env : ContractsEnv) : Nat × List Event :=
  let syms := get_current_contract_names env.refYear env.refMonth
  if env.barchartCreds = false then (1, [])
  else if env.sessionOk = false then (1, [Event.sessionCreate])
  else
    let fr := fetchLoop env.provider syms []
    match fr.1 with
    | none => (1, Event.sessionCreate :: fr.2)
    | some contractsData =>
      if contractsData.length ≠ 3 then (1, Event.sessionCreate :: fr.2)
      else if env.supabaseCreds = false then (1, Event.sessionCreate :: fr.2)
      else
        let u := update_supabase_contracts contractsData env.now env.insertOutcome
        match u.1 with
        | .error _ => (1, Event.sessionCreate :: fr.2 ++ u.2)
        | .ok _ => (0, Event.sessionCreate :: fr.2 ++ u.2)

/-- The body of the Alpha Vantage response as observed by
`fetch_exchange_rate`: the request raises, the outer key
`Realtime Currency Exchange Rate` is absent, the inner key
`5. Exchange Rate` is absent, `float(...)` fails, or a rate is present. -/
inductive RateResponse where
  | networkError : RateResponse
  | missingField : RateResponse
  | missingRateKey : RateResponse
  | badParse : RateResponse
  | ok : ℚ → RateResponse
deriving DecidableEq, Repr

/-- `fetch_exchange_rate` from `update_exchange_rate.py` (lines 45-78):
a missing API key raises before any request; every request-level or
parse-level failure is logged and re-raised (never converted to a
sentinel); a well-formed response yields the rate. -/
def fetch_exchange_rate (hasApiKey : Bool) (resp : RateResponse) :
    Except String ℚ × List Event :=
  if hasApiKey = false then (.error "Missing ALPHA_VANTAGE_API_KEY", [])
  else
    match resp with
    | .networkError => (.error "Failed to fetch exchange rate", [Event.rateFetch])
    | .missingField => (.error "Invalid response from Alpha Vantage API", [Event.rateFetch])
    | .missingRateKey => (.error "Failed to parse exchange rate", [Event.rateFetch])
    | .badParse => (.error "Failed to parse exchange rate", [Event.rateFetch])
    | .ok r => (.ok r, [Event.rateFetch])

/-- `update_supabase_exchange_rate` (lines 80-96 of
`update_exchange_rate.py`): inserts `{'exchange': rate, 'timestamp': now}`.
A raising insert is re-raised; an insert returning empty `result.data`
only logs an error and returns normally. -/
def update_supabase_exchange_rate (rate : ℚ) (now : String)
    (outcome : InsertOutcome) : Except String Unit × List Event :=
  match outcome with
  | .raises => (.error "Failed to update Supabase", [Event.insertRate rate now])
  | .ackEmpty => (.ok (), [Event.insertRate rate now])
  | .ackData => (.ok (), [Event.insertRate rate now])

/-- The environment of one run of the exchange-rate pipeline. -/
structure ExchangeEnv where
  hasApiKey : Bool
  rateResp : RateResponse
  supabaseCreds : Bool
  insertOutcome : InsertOutcome
  now : String

/-- `main` of `update_exchange_rate.py` (lines 98-114): fetch the rate,
then create the store client, then insert; any raise is caught by the
outer handler and ends the run with exit 1. -/
def mainExchange (env : ExchangeEnv) : Nat × List Event :=
  let f := fetch_exchange_rate env.hasApiKey env.rateResp
  match f.1 with
  | .error _ => (1, f.2)
  | .ok rate =>
    if env.supabaseCreds = false then (1, f.2)
    else
      let u := update_supabase_exchange_rate rate env.now env.insertOutcome
      match u.1 with
      | .error _ => (1, f.2 ++ u.2)
      | .ok _ => (0, f.2 ++ u.2)

/-! ### Helper lemmas -/

lemma sel_good (Y M : Nat) (h1 : 1 ≤ M) (h2 : M ≤ 12) :
    (selAnn Y M).length = 3 ∧
    List.Pairwise contractLt (selAnn Y M) ∧
    ∀ t ∈ selAnn Y M, Y < t.1 ∨ (t.1 = Y ∧ M < t.2.2) := by
  interval_cases M <;>
    simp [selAnn, iterItems, CONTRACT_MONTHS, selGoAnn, Nat.succ_ne_self,
      contractLt, codeOrder]

lemma sel_length (Y M : Nat) (h1 : 1 ≤ M) (h2 : M ≤ 12) :
    (get_current_contract_names Y M).length = 3 := by
  rw [sel_map]
  rw [List.length_map]
  exact (sel_good Y M h1 h2).1

lemma fetchLoop_some_length (provider : String → ProviderResult) :
    ∀ (l : List String) (acc res : List PricedContract),
      (fetchLoop provider l acc).1 = some res → res.length = acc.length + l.length := by
  intro l
  induction l with
  | nil =>
    intro acc res h
    simp only [fetchLoop, Option.some.injEq] at h
    simp [← h]
  | cons s rest ih =>
    intro acc res h
    rw [fetchLoop] at h
    cases hf : fetch_contract_price (provider s) with
    | none => rw [hf] at h; simp at h
    | some p =>
      rw [hf] at h
      have := ih (acc ++ [⟨s, p⟩]) res h
      simp only [List.length_append, List.length_cons, List.length_nil] at this ⊢
      omega

lemma fetchLoop_events (provider : String → ProviderResult) :
    ∀ (l : List String) (acc : List PricedContract) (e : Event),
      e ∈ (fetchLoop provider l acc).2 → ∃ s, e = Event.priceFetch s := by
  intro l
  induction l with
  | nil => intro acc e h; simp [fetchLoop] at h
  | cons s rest ih =>
    intro acc e h
    rw [fetchLoop] at h
    cases hf : fetch_contract_price (provider s) with
    | none =>
      rw [hf] at h
      simp only [List.mem_singleton] at h
      exact ⟨s, h⟩
    | some p =>
      rw [hf] at h
      simp only [List.mem_cons] at h
      rcases h with rfl | h
      · exact ⟨s, rfl⟩
      · exact ih (acc ++ [⟨s, p⟩]) e h

lemma fetchLoop_fail (provider : String → ProviderResult) :
    ∀ (l : List String) (k : Nat) (acc : List PricedContract), k < l.length →
      (∀ s ∈ l.take k, (fetch_contract_price (provider s)).isSome = true) →
      fetch_contract_price (provider (l.getD k "")) = none →
      fetchLoop provider l acc = (none, (l.take (k + 1)).map Event.priceFetch) := by
  intro l
  induction l with
  | nil => intro k acc hk; simp at hk
  | cons s rest ih =>
    intro k acc hk hprev hfail
    cases k with
    | zero =>
      have hf : fetch_contract_price (provider s) = none := hfail
      rw [fetchLoop, hf]
      simp
    | succ k' =>
      have hs : (fetch_contract_price (provider s)).isSome = true :=
        hprev s (by simp [List.take_succ_cons])
      obtain ⟨p, hp⟩ := Option.isSome_iff_exists.mp hs
      rw [fetchLoop, hp]
      have hrec := ih k' (acc ++ [⟨s, p⟩]) (by simpa using hk)
        (by
          intro s' hs'
          exact hprev s' (by simp [List.take_succ_cons, hs']))
        (by simpa using hfail)
      simp [hrec, List.take_succ_cons]

/-! ### Claims -/

/-- C2: for every reference date (year Y, month M with 1 ≤ M ≤ 12),
`get_current_contract_names` returns exactly 3 contract symbols — the
symbols of the annotated selection — strictly increasing under the
(year, quarterly-code-order) ordering, and every selected contract's
expiry (year, month) is strictly after (Y, M) under the `<=` skip rule. -/
theorem C2_selector_three_increasing_unexpired (Y M : Nat)
    (h1 : 1 ≤ M) (h2 : M ≤ 12) :
    (get_current_contract_names Y M).length = 3 ∧
    get_current_contract_names Y M = (selAnn Y M).map symOf ∧
    List.Pairwise contractLt (selAnn Y M) ∧
    ∀ t ∈ selAnn Y M, Y < t.1 ∨ (t.1 = Y ∧ M < t.2.2) :=
  ⟨sel_length Y M h1 h2, sel_map Y M,
   (sel_good Y M h1 h2).2.1, (sel_good Y M h1 h2).2.2⟩

/-- Witness for C2 at the concrete reference date (2024, February). -/
theorem C2_witness :
    (1 ≤ 2 ∧ 2 ≤ 12) ∧
    ((get_current_contract_names 2024 2).length = 3 ∧
     get_current_contract_names 2024 2 = (selAnn 2024 2).map symOf ∧
     List.Pairwise contractLt (selAnn 2024 2) ∧
     ∀ t ∈ selAnn 2024 2, 2024 < t.1 ∨ (t.1 = 2024 ∧ 2 < t.2.2)) :=
  ⟨⟨by decide, by decide⟩,
   C2_selector_three_increasing_unexpired 2024 2 (by decide) (by decide)⟩

/-- C4: `fetch_contract_price` is total over provider outcomes: a raised
exception, a missing series and an empty series all yield the sentinel
`none`, and a nonempty series yields its latest close. -/
theorem C4_fetch_price_total (resp : ProviderResult) :
    ((resp = ProviderResult.raises ∨ resp = ProviderResult.noneDf ∨
        resp = ProviderResult.series []) → fetch_contract_price resp = none) ∧
    ∀ rows c, resp = ProviderResult.series rows → rows.getLast? = some c →
      fetch_contract_price resp = some c := by
  constructor
  · rintro (rfl | rfl | rfl) <;> rfl
  · rintro rows c rfl hl
    have hne : rows.isEmpty = false := by
      cases rows with
      | nil => simp at hl
      | cons a t => rfl
    simp [fetch_contract_price, hne, hl]

/-- Witness for C4: a raising provider yields the sentinel, and a
two-row series yields the second (latest) close. -/
theorem C4_witness :
    fetch_contract_price ProviderResult.raises = none ∧
    fetch_contract_price (ProviderResult.series [(39 : ℚ)/2, (201 : ℚ)/10]) =
      some ((201 : ℚ)/10) :=
  ⟨(C4_fetch_price_total ProviderResult.raises).1 (Or.inl rfl),
   (C4_fetch_price_total (ProviderResult.series [(39 : ℚ)/2, (201 : ℚ)/10])).2
     [(39 : ℚ)/2, (201 : ℚ)/10] ((201 : ℚ)/10) rfl rfl⟩

/-- C8: with reference date (Y, March), the March contract of year Y is
excluded (equal month counts as expired), and the first returned symbol
is the May (code K) contract of year Y. -/
theorem C8_march_boundary (Y : Nat) :
    selAnn Y 3 = [(Y, "K", 5), (Y, "N", 7), (Y, "V", 10)] ∧
    (Y, "H", 3) ∉ selAnn Y 3 ∧
    (get_current_contract_names Y 3).head? = some (symbolFor "K" Y) := by
  have he : selAnn Y 3 = [(Y, "K", 5), (Y, "N", 7), (Y, "V", 10)] := by
    simp [selAnn, iterItems, CONTRACT_MONTHS, selGoAnn, Nat.succ_ne_self]
  refine ⟨he, ?_, ?_⟩
  · rw [he]; simp
  · rw [sel_map, he]; simp [symOf]

/-- C9: at reference date 2024-02-01 the selector returns exactly
SBH24, SBK24, SBN24, and with fetched prices 19.5, 20.1, 18.75 the
constructed record has the symbols and prices in that positional order
with one shared non-empty timestamp. -/
theorem C9_feb_2024_scenario (ts : String) (hts : ts ≠ "") :
    get_current_contract_names 2024 2 = ["SBH24", "SBK24", "SBN24"] ∧
    contract_record
        [⟨"SBH24", (19.5 : ℚ)⟩, ⟨"SBK24", (20.1 : ℚ)⟩, ⟨"SBN24", (18.75 : ℚ)⟩] ts =
      Except.ok ⟨"SBH24", (19.5 : ℚ), "SBK24", (20.1 : ℚ), "SBN24", (18.75 : ℚ), ts⟩ ∧
    ContractRecord.timestamp
        ⟨"SBH24", (19.5 : ℚ), "SBK24", (20.1 : ℚ), "SBN24", (18.75 : ℚ), ts⟩ = ts ∧
    ContractRecord.timestamp
        ⟨"SBH24", (19.5 : ℚ), "SBK24", (20.1 : ℚ), "SBN24", (18.75 : ℚ), ts⟩ ≠ "" :=
  ⟨by decide, rfl, rfl, hts⟩

/-- Witness for C9 at a concrete non-empty timestamp. -/
theorem C9_witness :
    get_current_contract_names 2024 2 = ["SBH24", "SBK24", "SBN24"] ∧
    contract_record
        [⟨"SBH24", (19.5 : ℚ)⟩, ⟨"SBK24", (20.1 : ℚ)⟩, ⟨"SBN24", (18.75 : ℚ)⟩]
        "2024-02-01T00:00:00" =
      Except.ok ⟨"SBH24", (19.5 : ℚ), "SBK24", (20.1 : ℚ), "SBN24", (18.75 : ℚ),
        "2024-02-01T00:00:00"⟩ := by
  have h := C9_feb_2024_scenario "2024-02-01T00:00:00" (by decide)
  exact ⟨h.1, h.2.1⟩

/-- Environment used to exercise the defensive count check of the
contracts pipeline: all three fetches succeed. -/
def envC10 : ContractsEnv :=
  ⟨2024, 2, true, true, fun _ => ProviderResult.series [20], true,
    InsertOutcome.ackData, "t"⟩

/-- C10: the defensive count check in the contracts `main` is unreachable:
whenever the fetch loop over the selected symbols completes (the point
where the check is evaluated), the collected list has length exactly 3. -/
theorem C10_count_check_unreachable (env : ContractsEnv)
    (h1 : 1 ≤ env.refMonth) (h2 : env.refMonth ≤ 12)
    (res : List PricedContract)
    (h : (fetchLoop env.provider
        (get_current_contract_names env.refYear env.refMonth) []).1 = some res) :
    res.length = 3 := by
  have hl := fetchLoop_some_length env.provider
    (get_current_contract_names env.refYear env.refMonth) [] res h
  rw [sel_length env.refYear env.refMonth h1 h2] at hl
  simpa using hl

/-- Witness for C10: with every fetch succeeding, the loop completes with
exactly 3 priced contracts. -/
theorem C10_witness :
    (1 ≤ envC10.refMonth ∧ envC10.refMonth ≤ 12) ∧
    ([⟨"SBH24", 20⟩, ⟨"SBK24", 20⟩, ⟨"SBN24", 20⟩] : List PricedContract).length = 3 :=
  ⟨⟨by decide, by decide⟩,
   C10_count_check_unreachable envC10 (by decide) (by decide)
     [⟨"SBH24", 20⟩, ⟨"SBK24", 20⟩, ⟨"SBN24", 20⟩] (by decide)⟩

/-- Contracts environment in which the insert is acknowledged with no
returned row data. -/
def envC1c : ContractsEnv :=
  ⟨2024, 2, true, true, fun _ => ProviderResult.series [20], true,
    InsertOutcome.ackEmpty, "t"⟩

/-- Exchange environment in which the insert is acknowledged with no
returned row data. -/
def envC1x : ExchangeEnv :=
  ⟨true, RateResponse.ok 1, true, InsertOutcome.ackEmpty, "t"⟩

/-- C1 (code behaviour at the failing input): when the insert call returns
without raising but with empty acknowledged row data, both pipelines
still invoke the sink and terminate with exit code 0, not nonzero. -/
theorem C1_empty_ack_still_exits_zero :
    (mainContracts envC1c).1 = 0 ∧
    Event.insertContracts ⟨"SBH24", 20, "SBK24", 20, "SBN24", 20, "t"⟩ ∈
      (mainContracts envC1c).2 ∧
    (mainExchange envC1x).1 = 0 ∧
    Event.insertRate 1 "t" ∈ (mainExchange envC1x).2 := by
  refine ⟨rfl, by decide, rfl, by decide⟩

/-- C3: if the price fetch for the (k+1)-th selected symbol returns the
"no price" sentinel (all earlier ones having succeeded), the contracts
run terminates with exit code 1, the fetch trace stops at that symbol
(no remaining symbol is fetched), and the Persistence Sink is never
invoked. -/
theorem C3_fail_fast_no_persist (env : ContractsEnv) (k : Nat)
    (hb : env.barchartCreds = true) (hs : env.sessionOk = true)
    (hk : k < (get_current_contract_names env.refYear env.refMonth).length)
    (hprev : ∀ s ∈ (get_current_contract_names env.refYear env.refMonth).take k,
      (fetch_contract_price (env.provider s)).isSome = true)
    (hfail : fetch_contract_price
        (env.provider
          ((get_current_contract_names env.refYear env.refMonth).getD k "")) = none) :
    mainContracts env =
      (1, Event.sessionCreate ::
        ((get_current_contract_names env.refYear env.refMonth).take (k + 1)).map
          Event.priceFetch) ∧
    ∀ e ∈ (mainContracts env).2, e.isInsert = false := by
  have hloop := fetchLoop_fail env.provider
    (get_current_contract_names env.refYear env.refMonth) k [] hk hprev hfail
  have hmain : mainContracts env =
      (1, Event.sessionCreate ::
        ((get_current_contract_names env.refYear env.refMonth).take (k + 1)).map
          Event.priceFetch) := by
    simp [mainContracts, hb, hs, hloop]
  refine ⟨hmain, ?_⟩
  rw [hmain]
  intro e he
  simp only [List.mem_cons, List.mem_map] at he
  rcases he with rfl | ⟨s, _, rfl⟩ <;> rfl

/-- Environment for the C3 witness: the very first fetch fails. -/
def envC3 : ContractsEnv :=
  ⟨2024, 2, true, true, fun _ => ProviderResult.raises, true,
    InsertOutcome.ackData, "t"⟩

/-- Witness for C3: the first fetch failing stops the run after one fetch
event, with exit 1 and no insert. -/
theorem C3_witness :
    mainContracts envC3 = (1, [Event.sessionCreate, Event.priceFetch "SBH24"]) ∧
    ∀ e ∈ (mainContracts envC3).2, e.isInsert = false := by
  have h := C3_fail_fast_no_persist envC3 0 rfl rfl (by decide)
    (by intro s hs0; simp at hs0) rfl
  simpa using h

/-- C5: for every run of the exchange-rate pipeline in which the provider
response lacks the expected nested field, the network call fails, or the
inner rate key is absent, `fetch_exchange_rate` signals an error (never a
sentinel), the run exits 1, and the Persistence Sink is never invoked. -/
theorem C5_rate_failure_aborts (env : ExchangeEnv)
    (h : env.rateResp = RateResponse.missingField ∨
      env.rateResp = RateResponse.networkError ∨
      env.rateResp = RateResponse.missingRateKey) :
    (∃ msg, (fetch_exchange_rate env.hasApiKey env.rateResp).1 = Except.error msg) ∧
    (mainExchange env).1 = 1 ∧
    ∀ e ∈ (mainExchange env).2, e.isInsert = false := by
  obtain ⟨key, resp, sc, ins, now⟩ := env
  rcases h with rfl | rfl | rfl <;> cases key <;>
    simp [mainExchange, fetch_exchange_rate, Event.isInsert]

/-- Environment for the C5 witness: response missing the expected field. -/
def envC5 : ExchangeEnv :=
  ⟨true, RateResponse.missingField, true, InsertOutcome.ackData, "t"⟩

/-- Witness for C5 at a concrete environment. -/
theorem C5_witness :
    (∃ msg, (fetch_exchange_rate envC5.hasApiKey envC5.rateResp).1 = Except.error msg) ∧
    (mainExchange envC5).1 = 1 ∧
    ∀ e ∈ (mainExchange envC5).2, e.isInsert = false :=
  C5_rate_failure_aborts envC5 (Or.inl rfl)

/-- Contracts environment with Supabase credentials absent but everything
else healthy. -/
def envC6 : ContractsEnv :=
  ⟨2024, 2, true, true, fun _ => ProviderResult.series [20], false,
    InsertOutcome.ackData, "t"⟩

/-- C6 counterexample: with SUPABASE_URL / SUPABASE_SERVICE_ROLE_KEY
absent, the contracts run still performs provider price fetches (the
credential check happens only after the fetch loop), contradicting
"no provider fetch occurs in any trace where a required variable is
absent". -/
theorem C6_counterexample :
    (mainContracts envC6).1 ≠ 0 ∧
    Event.priceFetch "SBH24" ∈ (mainContracts envC6).2 := by
  refine ⟨by decide, by decide⟩

/-- C6 (amended): a missing required credential always ends the run with
exit 1 and the store insert never happens; missing provider credentials
(BarChart, Alpha Vantage key) abort before any provider call, while
missing Supabase credentials are detected only after the provider
fetches. -/
theorem C6_missing_creds_no_insert (cenv : ContractsEnv) (xenv : ExchangeEnv) :
    (cenv.barchartCreds = false → mainContracts cenv = (1, [])) ∧
    (cenv.supabaseCreds = false → (mainContracts cenv).1 = 1 ∧
      ∀ e ∈ (mainContracts cenv).2, e.isInsert = false) ∧
    (xenv.hasApiKey = false → mainExchange xenv = (1, [])) ∧
    (xenv.supabaseCreds = false → (mainExchange xenv).1 = 1 ∧
      ∀ e ∈ (mainExchange xenv).2, e.isInsert = false) := by
  obtain ⟨Y, M, bc, so, prov, sc, ins, nowC⟩ := cenv
  obtain ⟨key, resp, xsc, xins, nowX⟩ := xenv
  refine ⟨?_, ?_, ?_, ?_⟩
  · rintro rfl
    simp [mainContracts]
  · rintro rfl
    cases bc with
    | false => simp [mainContracts]
    | true =>
      cases so with
      | false => simp [mainContracts, Event.isInsert]
      | true =>
        rcases hfl : fetchLoop prov (get_current_contract_names Y M) [] with ⟨o, tr⟩
        have htr : ∀ e ∈ tr, e.isInsert = false := by
          intro e he
          obtain ⟨s, rfl⟩ := fetchLoop_events prov (get_current_contract_names Y M) [] e
            (by rw [hfl]; exact he)
          rfl
        have hres : mainContracts ⟨Y, M, true, true, prov, false, ins, nowC⟩ =
            (1, Event.sessionCreate :: tr) := by
          cases o with
          | none => simp [mainContracts, hfl]
          | some data =>
            by_cases h3 : data.length = 3 <;> simp [mainContracts, hfl, h3]
        rw [hres]
        refine ⟨rfl, ?_⟩
        intro e he
        rcases List.mem_cons.mp he with rfl | he2
        · rfl
        · exact htr e he2
  · rintro rfl
    simp [mainExchange, fetch_exchange_rate]
  · rintro rfl
    cases key <;> cases resp <;>
      simp [mainExchange, fetch_exchange_rate, Event.isInsert]

/-- Contracts environment for the C6 witness: both credential sets absent. -/
def envC6w : ContractsEnv :=
  ⟨2024, 2, false, true, fun _ => ProviderResult.raises, false,
    InsertOutcome.ackData, "t"⟩

/-- Exchange environment for the C6 witness: both credential sets absent. -/
def envC6wx : ExchangeEnv :=
  ⟨false, RateResponse.ok 1, false, InsertOutcome.ackData, "t"⟩

/-- Witness for the amended C6 at concrete environments missing their
credentials. -/
theorem C6_witness :
    mainContracts envC6w = (1, []) ∧
    (mainContracts envC6w).1 = 1 ∧
    mainExchange envC6wx = (1, []) ∧
    (mainExchange envC6wx).1 = 1 := by
  have h := C6_missing_creds_no_insert envC6w envC6wx
  exact ⟨h.1 rfl, (h.2.1 rfl).1, h.2.2.1 rfl, (h.2.2.2 rfl).1⟩

/-- Exchange environment in which the provider reports a rate of 0. -/
def envC7 : ExchangeEnv :=
  ⟨true, RateResponse.ok 0, true, InsertOutcome.ackData, "t"⟩

/-- C7 counterexample: the pipeline performs no positivity validation, so
a provider rate of 0 is passed to the Persistence Sink even though 0 is
not strictly positive. -/
theorem C7_counterexample :
    Event.insertRate 0 "t" ∈ (mainExchange envC7).2 ∧ ¬ (0 : ℚ) > 0 := by
  refine ⟨by decide, by simp⟩

/-- C7 (amended): every rate passed to the Persistence Sink is exactly
the provider's fetched rate, stamped with the run's timestamp; the
pipeline adds no positivity check, so the persisted rate is positive
exactly when the provider's rate is. -/
theorem C7_rate_passthrough (env : ExchangeEnv) (r : ℚ) (ts : String)
    (h : Event.insertRate r ts ∈ (mainExchange env).2) :
    env.rateResp = RateResponse.ok r ∧ ts = env.now ∧
      ∀ r0, env.rateResp = RateResponse.ok r0 → 0 < r0 → 0 < r := by
  obtain ⟨key, resp, sc, ins, now⟩ := env
  cases key with
  | false => simp [mainExchange, fetch_exchange_rate] at h
  | true =>
    cases resp with
    | ok r0 =>
      cases sc with
      | false => simp [mainExchange, fetch_exchange_rate] at h
      | true =>
        cases ins <;>
          · simp [mainExchange, fetch_exchange_rate,
              update_supabase_exchange_rate, List.mem_cons] at h
            obtain ⟨rfl, rfl⟩ := h
            exact ⟨rfl, rfl, fun r1 h0 hp => by
              cases RateResponse.ok.inj h0; exact hp⟩
    | networkError => simp [mainExchange, fetch_exchange_rate] at h
    | missingField => simp [mainExchange, fetch_exchange_rate] at h
    | missingRateKey => simp [mainExchange, fetch_exchange_rate] at h
    | badParse => simp [mainExchange, fetch_exchange_rate] at h

/-- Exchange environment for the C7 witness: a positive provider rate. -/
def envC7w : ExchangeEnv :=
  ⟨true, RateResponse.ok 2, true, InsertOutcome.ackData, "ts0"⟩

/-- Witness for the amended C7 at a concrete inserted rate. -/
theorem C7_witness :
    envC7w.rateResp = RateResponse.ok 2 ∧ "ts0" = envC7w.now ∧
      ∀ r0, envC7w.rateResp = RateResponse.ok r0 → 0 < r0 → 0 < (2 : ℚ) :=
  C7_rate_passthrough envC7w 2 "ts0" (by decide)

end Sugargap
